import Mathlib

/-!
Shallow embedding of the DubADubDub frontend API module
(src/frontend/js/api.js, class `DubbingAPI`).

Strings are modelled as Lean `String` (a wrapper around `List Char`);
asynchronous effects are modelled by explicit traces: a run of a loop
records how many times it called its collaborator, which statuses it
surfaced to the `onUpdate` callback, which sleep durations it requested,
and how it finished.
-/

namespace DubADubDub

/-- The configuration fields set in the `DubbingAPI` constructor
(api.js lines 4-11): poll interval, max retries, the auto-retry flag and
the fixed retry delay schedule. -/
structure Config where
  pollInterval : Nat
  maxRetries : Nat
  autoRetryEnabled : Bool
  retryDelays : List Nat
  deriving Repr, DecidableEq

/-- The constructor defaults: `pollInterval = 2000`, `maxRetries = 3`,
`autoRetryEnabled = true`, `retryDelays = [1000, 3000, 5000]`. -/
def defaultConfig : Config :=
  { pollInterval := 2000
    maxRetries := 3
    autoRetryEnabled := true
    retryDelays := [1000, 3000, 5000] }

/-- `setAutoRetry` (api.js lines 215-217): sets the auto-retry flag. -/
def setAutoRetry (cfg : Config) (enabled : Bool) : Config :=
  { cfg with autoRetryEnabled := enabled }

/-- A status payload as consumed by `pollForCompletion`: the `status`
string and the optional `error` field of the JSON body. `none` models a
missing (undefined/null) `error` field. -/
structure StatusRecord where
  status : String
  error : Option String
  deriving Repr, DecidableEq

/-- The message of the Error thrown at api.js line 145:
`new Error(status.error || 'Processing failed')`. In JavaScript a missing
or empty `error` string is falsy, so the default text is used. -/
def jobErrorMessage (st : StatusRecord) : String :=
  match st.error with
  | some m => if m = "" then "Processing failed" else m
  | none => "Processing failed"

/-- Outcome of one `await this.checkStatus(sessionId)` as observed inside
`pollForCompletion`: either a parsed status payload, or a thrown error
carrying a message. -/
inductive FetchResult where
  | ok (st : StatusRecord)
  | err (msg : String)
  deriving Repr, DecidableEq

/-- How a (fuel-bounded) run of the polling loop finished. -/
inductive PollOutcome where
  /-- The loop executed `return status` (api.js line 143). -/
  | done (st : StatusRecord)
  /-- The loop threw out of the function with the given message. -/
  | failed (msg : String)
  /-- The fuel ran out while the loop was still going: the loop had not
  terminated by itself after that many iterations. -/
  | running
  /-- The `while` condition `retries < maxRetries` was false on entry, so
  the JavaScript function returned `undefined`. -/
  | exited
  deriving Repr, DecidableEq

/-- Observable trace of a run of `pollForCompletion`: number of
`checkStatus` calls, statuses surfaced to `onUpdate` in order, sleep
durations requested in order, and the outcome. -/
structure PollTrace where
  fetches : Nat
  updates : List StatusRecord
  sleeps : List Nat
  outcome : PollOutcome
  deriving Repr, DecidableEq

/-- Prefix a trace with the events of one loop iteration. -/
def PollTrace.step (f : Nat) (us : List StatusRecord) (ss : List Nat)
    (t : PollTrace) : PollTrace :=
  { fetches := f + t.fetches
    updates := us ++ t.updates
    sleeps := ss ++ t.sleeps
    outcome := t.outcome }

/-- The aggregated message thrown at api.js line 157:
`Status polling failed after ${this.maxRetries} retries: ${error.message}`. -/
def aggregatedPollError (maxRetries : Nat) (msg : String) : String :=
  "Status polling failed after " ++ toString maxRetries ++ " retries: " ++ msg

/-- The body of `pollForCompletion` (api.js lines 130-164), fuel-bounded.
`env idx` is the result of the `idx`-th call to `checkStatus`; `retries`
is the mutable failure counter. One unit of fuel is one loop iteration.

Faithfulness notes, traced from the source:
- the `throw` on a terminal `error`/`failed` status (line 145) is inside
  the loop's own `try`, so control lands in the `catch` (line 152), the
  counter is incremented, and — below the cap — the loop sleeps
  `pollInterval * retries` and polls again;
- a successful `processing` poll sleeps `pollInterval` and resets the
  counter to 0 (lines 149-150);
- when the incremented counter reaches `maxRetries`, the aggregated
  error is thrown (lines 156-158). -/
def pollGo (cfg : Config) (env : Nat → FetchResult) :
    Nat → Nat → Nat → PollTrace
  | 0, _, _ => ⟨0, [], [], .running⟩
  | fuel + 1, retries, idx =>
    if retries < cfg.maxRetries then
      match env idx with
      | .err m =>
        if cfg.maxRetries ≤ retries + 1 then
          ⟨1, [], [], .failed (aggregatedPollError cfg.maxRetries m)⟩
        else
          PollTrace.step 1 [] [cfg.pollInterval * (retries + 1)]
            (pollGo cfg env fuel (retries + 1) (idx + 1))
      | .ok st =>
        if st.status = "completed" then
          ⟨1, [st], [], .done st⟩
        else if st.status = "error" ∨ st.status = "failed" then
          if cfg.maxRetries ≤ retries + 1 then
            ⟨1, [st], [],
              .failed (aggregatedPollError cfg.maxRetries (jobErrorMessage st))⟩
          else
            PollTrace.step 1 [st] [cfg.pollInterval * (retries + 1)]
              (pollGo cfg env fuel (retries + 1) (idx + 1))
        else
          PollTrace.step 1 [st] [cfg.pollInterval]
            (pollGo cfg env fuel 0 (idx + 1))
    else ⟨0, [], [], .exited⟩

/-- `pollForCompletion(sessionId, onUpdate)` from the start:
`let retries = 0` and the first `checkStatus` call is index 0. -/
def pollForCompletion (cfg : Config) (env : Nat → FetchResult)
    (fuel : Nat) : PollTrace :=
  pollGo cfg env fuel 0 0

/-- A status on which the loop keeps polling: none of the branch tests
at api.js lines 142 and 144 fire. -/
def nonTerminalStatus (st : StatusRecord) : Prop :=
  st.status ≠ "completed" ∧ st.status ≠ "error" ∧ st.status ≠ "failed"

instance (st : StatusRecord) : Decidable (nonTerminalStatus st) := by
  unfold nonTerminalStatus; infer_instance

/-! ### Substring utilities

JavaScript `hay.includes(needle)` and `message.toLowerCase()`, modelled
on the character list underlying a `String`. -/

/-- Does `needle` occur as a prefix of `hay`? -/
def startsWithL : List Char → List Char → Bool
  | [], _ => true
  | _ :: _, [] => false
  | p :: ps, c :: cs => p == c && startsWithL ps cs

/-- Does `needle` occur as a contiguous substring of `hay`? -/
def containsSubL (needle : List Char) : List Char → Bool
  | [] => startsWithL needle []
  | c :: cs => startsWithL needle (c :: cs) || containsSubL needle cs

/-- JavaScript `hay.includes(needle)`. -/
def includes (hay needle : String) : Bool :=
  containsSubL needle.data hay.data

/-- JavaScript `s.toLowerCase()` on the character list of `s`. -/
def jsToLower (s : String) : String :=
  ⟨s.data.map Char.toLower⟩

/-! ### The operation-level retry wrapper `withRetry` -/

/-- `isNonRetryableError` (api.js lines 265-275): lowercase the message
and look for the non-retryable markers. -/
def isNonRetryableError (msg : String) : Bool :=
  let m := jsToLower msg
  includes m "unauthorized" ||
  includes m "forbidden" ||
  includes m "not found" ||
  includes m "bad request" ||
  includes m "invalid" ||
  includes m "malformed"

/-- How a run of `withRetry` finished: a returned operation value, a
re-raised operation error, or the aggregated exhaustion error. -/
inductive RetryOutcome (α : Type) where
  | ok (a : α)
  | raised (msg : String)
  | aggregated (msg : String)
  deriving Repr, DecidableEq

/-- Observable trace of a run of `withRetry`: number of invocations of
the wrapped operation, sleep durations requested in order, outcome. -/
structure RetryTrace (α : Type) where
  invocations : Nat
  delays : List Nat
  outcome : RetryOutcome α
  deriving Repr, DecidableEq

/-- The aggregated message thrown at api.js line 257:
`${operationName} failed after ${maxAttempts + 1} attempts: ${lastError.message}`. -/
def aggregatedRetryError (operationName : String) (maxAttempts : Nat)
    (lastMsg : String) : String :=
  operationName ++ " failed after " ++ toString (maxAttempts + 1) ++
    " attempts: " ++ lastMsg

/-- The delay chosen at api.js line 251:
`retryDelays[Math.min(attempt, retryDelays.length - 1)]`. -/
def retryDelayAt (delays : List Nat) (attempt : Nat) : Nat :=
  delays.getD (min attempt (delays.length - 1)) 0

/-- The `for` loop of `withRetry` (api.js lines 234-257), entered at a
given `attempt` index. `op i` is the outcome of the `i`-th invocation of
the wrapped operation: a value or a thrown error message. On an error
the wrapper records it, re-raises immediately when it is non-retryable,
otherwise sleeps (below the cap) and tries again; past the cap it throws
the aggregated error built from the last failure. -/
def withRetryGo {α : Type} (op : Nat → Except String α)
    (operationName : String) (delays : List Nat) (maxAttempts : Nat)
    (attempt : Nat) : RetryTrace α :=
  match op attempt with
  | .ok a => ⟨1, [], .ok a⟩
  | .error e =>
    if isNonRetryableError e then
      ⟨1, [], .raised e⟩
    else if h : attempt < maxAttempts then
      let t := withRetryGo op operationName delays maxAttempts (attempt + 1)
      ⟨1 + t.invocations, retryDelayAt delays attempt :: t.delays, t.outcome⟩
    else
      ⟨1, [], .aggregated (aggregatedRetryError operationName maxAttempts e)⟩
  termination_by maxAttempts - attempt

/-- JavaScript `maxRetries || this.maxRetries` (api.js line 231): both
`null` and `0` are falsy, so they fall back to the configured cap. -/
def resolveMaxAttempts (maxRetries : Option Nat) (cfgMax : Nat) : Nat :=
  match maxRetries with
  | some n => if n = 0 then cfgMax else n
  | none => cfgMax

/-- `withRetry(operation, operationName, maxRetries)` (api.js lines
226-258). With auto-retry disabled it performs a single bare invocation
(line 228); otherwise it runs the retry loop from attempt 0. -/
def withRetry {α : Type} (cfg : Config) (op : Nat → Except String α)
    (operationName : String) (maxRetries : Option Nat) : RetryTrace α :=
  if cfg.autoRetryEnabled then
    withRetryGo op operationName cfg.retryDelays
      (resolveMaxAttempts maxRetries cfg.maxRetries) 0
  else
    match op 0 with
    | .ok a => ⟨1, [], .ok a⟩
    | .error e => ⟨1, [], .raised e⟩

/-- `submitVideo` (api.js lines 20-42) wraps its fetch in
`withRetry(..., 'video submission')` with the default cap, identically
in both auto-retry modes; `op` stands for the inner fetch operation. -/
def submitVideo {α : Type} (cfg : Config) (op : Nat → Except String α) :
    RetryTrace α :=
  withRetry cfg op "video submission" none

/-! ### Error message formatting (for display) -/

/-- The fixed user-facing message for a rate-limit error. -/
def rateLimitMessage : String :=
  "API rate limit exceeded. Please wait a few minutes and try again."

/-- The fixed user-facing message for a network error. -/
def networkMessage : String :=
  "Network connection error. Please check your internet connection and try again."

/-- The fixed user-facing message for an authentication error. -/
def authMessage : String :=
  "Authentication error. Please contact support."

/-- The fixed user-facing message for a not-found error. -/
def notFoundMessage : String :=
  "Video not found or unavailable. Please check the YouTube URL."

/-- `formatErrorMessage` (api.js lines 282-296), as a function of the
error message. The final branch models `error.message || '...'`: an
empty message string is falsy in JavaScript. -/
def formatErrorMessage (msg : String) : String :=
  if includes msg "rate limit" then rateLimitMessage
  else if includes msg "network" || includes msg "fetch" then networkMessage
  else if includes msg "unauthorized" || includes msg "auth" then authMessage
  else if includes msg "not found" || includes msg "404" then notFoundMessage
  else if includes msg "failed after" then
    msg ++ " Auto-retry was attempted but unsuccessful."
  else if msg = "" then "An unexpected error occurred. Please try again."
  else msg

/-- The four known error kinds of `formatErrorMessage`. -/
inductive ErrorKind where
  | rateLimit
  | network
  | auth
  | notFound
  deriving Repr, DecidableEq

/-- The fixed message associated to each known kind. -/
def kindMessage : ErrorKind → String
  | .rateLimit => rateLimitMessage
  | .network => networkMessage
  | .auth => authMessage
  | .notFound => notFoundMessage

/-- Textual match of a message against the rate-limit kind. -/
def matchesRateLimitKind (m : String) : Bool := includes m "rate limit"

/-- Textual match of a message against the network kind. -/
def matchesNetworkKind (m : String) : Bool :=
  includes m "network" || includes m "fetch"

/-- Textual match of a message against the auth kind. -/
def matchesAuthKind (m : String) : Bool :=
  includes m "unauthorized" || includes m "auth"

/-- Textual match of a message against the not-found kind. -/
def matchesNotFoundKind (m : String) : Bool :=
  includes m "not found" || includes m "404"

/-- Does the message match at least one known kind? -/
def matchesKnownKind (m : String) : Bool :=
  matchesRateLimitKind m || matchesNetworkKind m ||
  matchesAuthKind m || matchesNotFoundKind m

/-- The first kind matching the message, in the precedence order of the
`if` chain of `formatErrorMessage`. -/
def firstMatchingKind (m : String) : Option ErrorKind :=
  if matchesRateLimitKind m then some .rateLimit
  else if matchesNetworkKind m then some .network
  else if matchesAuthKind m then some .auth
  else if matchesNotFoundKind m then some .notFound
  else none

/-! ### YouTube URL validation, extraction and normalisation

The regular expressions of `isValidYouTubeUrl`, `extractVideoId` and
`normalizeYouTubeUrl` are embedded as explicit matchers on character
lists. The patterns consist of literals, one optional literal group,
and a final character class repetition, so greedy matching without
backtracking is equivalent: a consumed optional `s` can never begin the
mandatory `://`, and a consumed optional `www.` can never begin the
mandatory `youtube.com...` literal. -/

/-- JavaScript `\w`: `[A-Za-z0-9_]`. -/
def isWordChar (c : Char) : Bool := c.isAlpha || c.isDigit || c == '_'

/-- The character class `[\w-]`. -/
def isWordOrHyphen (c : Char) : Bool := isWordChar c || c == '-'

/-- Whitespace removed by `trim`, restricted to the ASCII whitespace
characters relevant here. -/
def jsWhitespace (c : Char) : Bool :=
  c == ' ' || c == '\t' || c == '\n' || c == '\r'

/-- `url.trim()` on a character list: drop whitespace from both ends. -/
def trimL (l : List Char) : List Char :=
  ((l.dropWhile jsWhitespace).reverse.dropWhile jsWhitespace).reverse

/-- Strip a literal prefix, returning the rest on success. -/
def stripPfx : List Char → List Char → Option (List Char)
  | [], s => some s
  | _ :: _, [] => none
  | p :: ps, c :: cs => if p == c then stripPfx ps cs else none

/-- Match the leading `https?://` of all four validation patterns:
literal `http`, optional `s`, literal `://`. -/
def stripScheme (l : List Char) : Option (List Char) :=
  match stripPfx "http".data l with
  | none => none
  | some r =>
    let r2 := match stripPfx "s".data r with
      | some r1 => r1
      | none => r
    stripPfx "://".data r2

/-- Match the optional group `(www\.)?`. -/
def stripOptWww (l : List Char) : List Char :=
  match stripPfx "www.".data l with
  | some r => r
  | none => l

/-- The trailing `[\w-]+` with nothing after it: at least one matching
character at the current position. -/
def headWordHyphen : List Char → Bool
  | [] => false
  | c :: _ => isWordOrHyphen c

/-- Pattern `^https?:\/\/(www\.)?youtube\.com\/watch\?v=[\w-]+`. -/
def matchWatchPattern (l : List Char) : Bool :=
  match stripScheme l with
  | none => false
  | some r =>
    match stripPfx "youtube.com/watch?v=".data (stripOptWww r) with
    | none => false
    | some r2 => headWordHyphen r2

/-- Pattern `^https?:\/\/youtu\.be\/[\w-]+`. -/
def matchShortPattern (l : List Char) : Bool :=
  match stripScheme l with
  | none => false
  | some r =>
    match stripPfx "youtu.be/".data r with
    | none => false
    | some r2 => headWordHyphen r2

/-- Pattern `^https?:\/\/(www\.)?youtube\.com\/embed\/[\w-]+`. -/
def matchEmbedPattern (l : List Char) : Bool :=
  match stripScheme l with
  | none => false
  | some r =>
    match stripPfx "youtube.com/embed/".data (stripOptWww r) with
    | none => false
    | some r2 => headWordHyphen r2

/-- Pattern `^https?:\/\/(www\.)?youtube\.com\/v\/[\w-]+`. -/
def matchVPattern (l : List Char) : Bool :=
  match stripScheme l with
  | none => false
  | some r =>
    match stripPfx "youtube.com/v/".data (stripOptWww r) with
    | none => false
    | some r2 => headWordHyphen r2

/-- `isValidYouTubeUrl` (api.js lines 180-189): true when some pattern
matches (each pattern is anchored at the start). -/
def isValidYouTubeUrl (url : String) : Bool :=
  matchWatchPattern url.data || matchShortPattern url.data ||
  matchEmbedPattern url.data || matchVPattern url.data

/-- The capture class `[^&\n?#]` of the `extractVideoId` pattern. -/
def idCapChar (c : Char) : Bool :=
  !(c == '&' || c == '\n' || c == '?' || c == '#')

/-- The alternation
`youtube\.com\/watch\?v=|youtu\.be\/|youtube\.com\/embed\/|youtube\.com\/v\/`
tried at a fixed position, left to right. The four literals are pairwise
incompatible (they diverge within their common prefix), so at most one
can match at a given position. -/
def tryAlternatives (l : List Char) : Option (List Char) :=
  match stripPfx "youtube.com/watch?v=".data l with
  | some r => some r
  | none =>
    match stripPfx "youtu.be/".data l with
    | some r => some r
    | none =>
      match stripPfx "youtube.com/embed/".data l with
      | some r => some r
      | none => stripPfx "youtube.com/v/".data l

/-- Attempt the whole pattern at a fixed position: an alternative
followed by a non-empty greedy capture of `[^&\n?#]+`. -/
def captureAt (l : List Char) : Option (List Char) :=
  match tryAlternatives l with
  | none => none
  | some r =>
    let cap := r.takeWhile idCapChar
    if cap.isEmpty then none else some cap

/-- The unanchored regex search: try the pattern at each position, left
to right, returning the first capture. -/
def scanExtract : List Char → Option (List Char)
  | [] => none
  | c :: cs =>
    match captureAt (c :: cs) with
    | some cap => some cap
    | none => scanExtract cs

/-- `extractVideoId` (api.js lines 196-209): first match of the single
pattern, returning capture group 1, or null. -/
def extractVideoId (url : String) : Option String :=
  match scanExtract url.data with
  | some cap => some ⟨cap⟩
  | none => none

/-- `normalizeYouTubeUrl` (api.js lines 303-311): a trimmed bare
11-character `[\w-]{11}` video id becomes a full watch URL; anything
else is returned trimmed. -/
def normalizeYouTubeUrl (url : String) : String :=
  let t := trimL url.data
  if t.length == 11 && t.all isWordOrHyphen then
    ⟨"https://www.youtube.com/watch?v=".data ++ t⟩
  else ⟨t⟩

/-! ### Batch submission -/

/-- One element of the array returned by `submitBatch`: the url, the
success flag, and either the submission result or the error message. -/
structure BatchEntry (α : Type) where
  url : String
  success : Bool
  result : Option α
  error : Option String
  deriving Repr, DecidableEq

/-- The entry pushed for one url (api.js lines 62-67): `try` the
submission, record `{url, success: true, result}` on success and
`{url, success: false, error: error.message}` on a thrown error. -/
def mkEntry {α : Type} (url : String) : Except String α → BatchEntry α
  | .ok r => ⟨url, true, some r, none⟩
  | .error e => ⟨url, false, none, some e⟩

/-- A progress callback invocation (api.js line 59):
`{current: i + 1, total, currentUrl: url}`. -/
structure ProgressEvent where
  current : Nat
  total : Nat
  currentUrl : String
  deriving Repr, DecidableEq

/-- The `for` loop of `submitBatch` (api.js lines 56-68), from index
`i`: report progress, attempt the submission (`submit u` is the outcome
of `submitVideo` for url `u`), record the entry, continue with the next
url. Returns the progress events and the results array. -/
def submitBatchGo {α : Type} (submit : String → Except String α)
    (total : Nat) : List String → Nat →
    List ProgressEvent × List (BatchEntry α)
  | [], _ => ([], [])
  | u :: rest, i =>
    let t := submitBatchGo submit total rest (i + 1)
    (⟨i + 1, total, u⟩ :: t.1, mkEntry u (submit u) :: t.2)

/-- `submitBatch(youtubeUrls, ...)` (api.js lines 52-71). -/
def submitBatch {α : Type} (submit : String → Except String α)
    (urls : List String) : List ProgressEvent × List (BatchEntry α) :=
  submitBatchGo submit urls.length urls 0

/-! ## Helper lemmas -/

theorem PollTrace.step_assoc (f1 f2 : Nat) (u1 u2 : List StatusRecord)
    (s1 s2 : List Nat) (t : PollTrace) :
    PollTrace.step f1 u1 s1 (PollTrace.step f2 u2 s2 t) =
      PollTrace.step (f1 + f2) (u1 ++ u2) (s1 ++ s2) t := by
  simp [PollTrace.step, Nat.add_assoc]

theorem PollTrace.step_zero (t : PollTrace) :
    PollTrace.step 0 [] [] t = t := by
  simp [PollTrace.step]

/-! ## Claims about the polling loop -/

/-- C1: the claim says that on a terminal `error`/`failed` status the
poller stops immediately and propagates the attached error, with zero
additional `checkStatus` calls. Evaluating the embedded poller on a
session whose status endpoint reports `status = error` with attached
message "boom" on every fetch (constructor defaults, cap 3) shows the
opposite: the loop performs three fetches in total — two additional
fetches after the first terminal observation — sleeps twice with linear
backoff, and finally throws the wrapped aggregated polling error rather
than the attached error. The `throw` at api.js line 145 lands in the
catch block of the same loop (line 152). -/
theorem pollForCompletion_terminal_error_eval :
    pollForCompletion defaultConfig
        (fun _ => .ok ⟨"error", some "boom"⟩) 10 =
      { fetches := 3
        updates := [⟨"error", some "boom"⟩, ⟨"error", some "boom"⟩,
                    ⟨"error", some "boom"⟩]
        sleeps := [2000, 4000]
        outcome := .failed "Status polling failed after 3 retries: boom" } := by
  rfl

/-- C5: on a transport-level status-fetch failure the poller increments
its failure counter; strictly below the cap it sleeps
`pollInterval * failureCount` and continues with the next fetch; at the
cap it fails the whole operation with the aggregated error, whose text
is a fixed prefix followed by the last observed transport failure
message. -/
theorem pollForCompletion_transport_failure (cfg : Config)
    (env : Nat → FetchResult) (fuel retries idx : Nat) (m : String)
    (henv : env idx = .err m) (hlt : retries < cfg.maxRetries) :
    (retries + 1 < cfg.maxRetries →
      pollGo cfg env (fuel + 1) retries idx =
        PollTrace.step 1 [] [cfg.pollInterval * (retries + 1)]
          (pollGo cfg env fuel (retries + 1) (idx + 1))) ∧
    (cfg.maxRetries ≤ retries + 1 →
      pollGo cfg env (fuel + 1) retries idx =
        ⟨1, [], [], .failed (aggregatedPollError cfg.maxRetries m)⟩) ∧
    (∃ p, aggregatedPollError cfg.maxRetries m = p ++ m) := by
  refine ⟨?_, ?_, ?_⟩
  · intro h
    have hc : ¬ cfg.maxRetries ≤ retries + 1 := by omega
    simp [pollGo, henv, hlt, hc]
  · intro h
    simp [pollGo, henv, hlt, h]
  · exact ⟨"Status polling failed after " ++ toString cfg.maxRetries ++
      " retries: ", rfl⟩

theorem pollForCompletion_transport_failure_witness :
    (pollGo defaultConfig (fun _ => .err "ECONNRESET") 6 0 0 =
      PollTrace.step 1 [] [2000]
        (pollGo defaultConfig (fun _ => .err "ECONNRESET") 5 1 1)) ∧
    (pollGo defaultConfig (fun _ => .err "ECONNRESET") 3 2 2 =
      ⟨1, [], [], .failed (aggregatedPollError 3 "ECONNRESET")⟩) := by
  constructor
  · exact (pollForCompletion_transport_failure defaultConfig
      (fun _ => .err "ECONNRESET") 5 0 0 "ECONNRESET" rfl (by decide)).1
      (by decide)
  · exact (pollForCompletion_transport_failure defaultConfig
      (fun _ => .err "ECONNRESET") 2 2 2 "ECONNRESET" rfl (by decide)).2.1
      (by decide)

theorem pollGo_nonterminal_run (cfg : Config) (env : Nat → FetchResult)
    (sts : Nat → StatusRecord) (hmax : 0 < cfg.maxRetries) :
    ∀ (k idx fuel : Nat), k ≤ fuel →
      (∀ i, i < k →
        env (idx + i) = .ok (sts (idx + i)) ∧
          nonTerminalStatus (sts (idx + i))) →
      pollGo cfg env fuel 0 idx =
        PollTrace.step k ((List.range k).map (fun i => sts (idx + i)))
          (List.replicate k cfg.pollInterval)
          (pollGo cfg env (fuel - k) 0 (idx + k)) := by
  intro k
  induction k with
  | zero =>
    intro idx fuel _ _
    simp [PollTrace.step_zero]
  | succ k ih =>
    intro idx fuel hk h
    obtain ⟨f, rfl⟩ : ∃ f, fuel = f + 1 := ⟨fuel - 1, by omega⟩
    have h0 := h 0 (by omega)
    rw [Nat.add_zero] at h0
    obtain ⟨henv, hnt⟩ := h0
    have hrec := ih (idx + 1) f (by omega) (fun i hi => by
      have := h (i + 1) (by omega)
      rwa [show idx + (i + 1) = idx + 1 + i by omega] at this)
    have e1 : f + 1 - (k + 1) = f - k := by omega
    have e2 : idx + (k + 1) = idx + 1 + k := by omega
    have e3 : (List.range (k + 1)).map (fun i => sts (idx + i)) =
        sts idx :: (List.range k).map (fun i => sts (idx + 1 + i)) := by
      have hfun : ((fun i => sts (idx + i)) ∘ Nat.succ) =
          fun i => sts (idx + 1 + i) := by
        funext i
        show sts (idx + (i + 1)) = sts (idx + 1 + i)
        congr 1
        omega
      rw [List.range_succ_eq_map, List.map_cons, List.map_map, hfun]
      simp
    have e4 : List.replicate (k + 1) cfg.pollInterval =
        cfg.pollInterval :: List.replicate k cfg.pollInterval :=
      List.replicate_succ ..
    simp only [pollGo, hmax, if_true, henv, hnt.1, hnt.2.1, hnt.2.2]
    rw [hrec, PollTrace.step_assoc, e1, e2, e3, e4]
    simp [PollTrace.step, PollTrace.mk.injEq]
    omega

/-- C4: against a session whose every status fetch succeeds with
`status = processing`, the poller never self-terminates: after any
number `fuel` of loop iterations the run is still going (`.running`),
every iteration performed exactly one fetch (the failure counter is
reset on each successful poll, so the bound is never reached), and
every fetched status was surfaced to `onUpdate` in order. -/
theorem pollForCompletion_processing_never_self_terminates (cfg : Config)
    (env : Nat → FetchResult) (sts : Nat → StatusRecord)
    (hmax : 0 < cfg.maxRetries)
    (hproc : ∀ i, env i = .ok (sts i) ∧ (sts i).status = "processing")
    (fuel : Nat) :
    pollForCompletion cfg env fuel =
      ⟨fuel, (List.range fuel).map sts,
        List.replicate fuel cfg.pollInterval, .running⟩ := by
  have hnt : ∀ i, nonTerminalStatus (sts i) := by
    intro i
    have h := (hproc i).2
    refine ⟨?_, ?_, ?_⟩ <;> rw [h] <;> decide
  have hall : ∀ i, i < fuel →
      env (0 + i) = .ok (sts (0 + i)) ∧ nonTerminalStatus (sts (0 + i)) := by
    intro i _
    simpa using ⟨(hproc i).1, hnt i⟩
  unfold pollForCompletion
  rw [pollGo_nonterminal_run cfg env sts hmax fuel 0 fuel le_rfl hall]
  simp [PollTrace.step, pollGo]

theorem pollForCompletion_processing_never_self_terminates_witness :
    pollForCompletion defaultConfig (fun _ => .ok ⟨"processing", none⟩) 3 =
      ⟨3, (List.range 3).map (fun _ => ⟨"processing", none⟩),
        List.replicate 3 2000, .running⟩ :=
  pollForCompletion_processing_never_self_terminates defaultConfig
    (fun _ => .ok ⟨"processing", none⟩) (fun _ => ⟨"processing", none⟩)
    (by decide) (fun _ => ⟨rfl, rfl⟩) 3

/-- C6: if the first `k` status fetches succeed with a non-terminal
status and the fetch at index `k` succeeds with `status = completed`,
the poller performs exactly `k + 1` fetches, surfaces every status
including the final one, and returns the final snapshot unchanged:
no further fetch happens after the `completed` observation. -/
theorem pollForCompletion_completed_stops (cfg : Config)
    (env : Nat → FetchResult) (sts : Nat → StatusRecord) (st : StatusRecord)
    (k fuel : Nat) (hmax : 0 < cfg.maxRetries)
    (hpre : ∀ i, i < k → env i = .ok (sts i) ∧ nonTerminalStatus (sts i))
    (hk : env k = .ok st) (hst : st.status = "completed") (hfuel : k < fuel) :
    pollForCompletion cfg env fuel =
      ⟨k + 1, ((List.range k).map sts) ++ [st],
        List.replicate k cfg.pollInterval, .done st⟩ := by
  have hpre0 : ∀ i, i < k →
      env (0 + i) = .ok (sts (0 + i)) ∧ nonTerminalStatus (sts (0 + i)) := by
    intro i hi
    simpa using hpre i hi
  unfold pollForCompletion
  rw [pollGo_nonterminal_run cfg env sts hmax k 0 fuel (by omega) hpre0]
  obtain ⟨m, hm⟩ : ∃ m, fuel - k = m + 1 := ⟨fuel - k - 1, by omega⟩
  rw [hm]
  have h0k : (0 : Nat) + k = k := by omega
  rw [h0k]
  simp only [pollGo, hmax, if_true, hk, hst]
  simp [PollTrace.step]

theorem pollForCompletion_completed_stops_witness :
    pollForCompletion defaultConfig
        (fun i => if i < 2 then .ok ⟨"processing", none⟩
                  else .ok ⟨"completed", none⟩) 10 =
      ⟨3, [⟨"processing", none⟩, ⟨"processing", none⟩] ++
            [⟨"completed", none⟩],
        [2000, 2000], .done ⟨"completed", none⟩⟩ :=
  pollForCompletion_completed_stops defaultConfig
    (fun i => if i < 2 then .ok ⟨"processing", none⟩
              else .ok ⟨"completed", none⟩)
    (fun _ => ⟨"processing", none⟩) ⟨"completed", none⟩ 2 10 (by decide)
    (fun i hi => ⟨by simp [hi],
      (by decide : nonTerminalStatus ⟨"processing", none⟩)⟩)
    (by decide) rfl (by decide)

/-! ## Claims about the retry wrapper -/

/-- C7: after `setAutoRetry(false)`, every call to `withRetry` invokes
the wrapped operation exactly once, applies no delay, and returns the
operation result unchanged (a value is returned, an error is re-raised
as is); and the `submitVideo` call site is the same `withRetry` call in
both modes — it is definitionally `withRetry cfg op "video submission"`
with the default cap for every configuration `cfg`. -/
theorem withRetry_disabled_single_attempt {α : Type} (cfg0 : Config)
    (op : Nat → Except String α) (nm : String) (mr : Option Nat) :
    (withRetry (setAutoRetry cfg0 false) op nm mr =
      ⟨1, [], match op 0 with
              | .ok a => .ok a
              | .error e => .raised e⟩) ∧
    (∀ cfg : Config, submitVideo cfg op =
      withRetry cfg op "video submission" none) := by
  constructor
  · cases h : op 0 <;> simp [withRetry, setAutoRetry, h]
  · intro cfg; rfl

theorem withRetryGo_nonretryable {α : Type} (op : Nat → Except String α)
    (nm : String) (ds : List Nat) (M a : Nat) (e : String)
    (h1 : op a = .error e) (h2 : isNonRetryableError e = true) :
    withRetryGo op nm ds M a = ⟨1, [], .raised e⟩ := by
  rw [withRetryGo.eq_def, h1]
  simp [h2]

theorem withRetryGo_allFail {α : Type} (op : Nat → Except String α)
    (nm : String) (ds : List Nat) (M : Nat)
    (h : ∀ i, ∃ e, op i = .error e ∧ isNonRetryableError e = false) :
    ∀ n a, M - a = n → a ≤ M →
      ∃ e, op M = .error e ∧
        (withRetryGo op nm ds M a).invocations = M - a + 1 ∧
        (withRetryGo op nm ds M a).outcome =
          .aggregated (aggregatedRetryError nm M e) := by
  intro n
  induction n with
  | zero =>
    intro a h0 hle
    have ha : a = M := by omega
    subst ha
    obtain ⟨e, he, hnr⟩ := h a
    refine ⟨e, he, ?_, ?_⟩ <;> rw [withRetryGo.eq_def, he] <;> simp [hnr]
  | succ n ih =>
    intro a h0 hle
    have hlt : a < M := by omega
    obtain ⟨e, he, hnr⟩ := h a
    obtain ⟨e2, he2, hInv, hOut⟩ := ih (a + 1) (by omega) (by omega)
    refine ⟨e2, he2, ?_, ?_⟩
    · rw [withRetryGo.eq_def, he]
      simp [hnr, hlt]
      rw [hInv]
      omega
    · rw [withRetryGo.eq_def, he]
      simp [hnr, hlt]
      exact hOut

/-- C2: with auto-retry enabled and configured cap `maxRetries`, an
operation that fails with a retryable error on every attempt is invoked
exactly `maxRetries + 1` times, after which the wrapper fails with the
aggregated error built from the last (cap-indexed) failure; the exact
invocation count shows no invocation occurs past the cap. -/
theorem withRetry_exhausts_cap {α : Type} (cfg : Config)
    (op : Nat → Except String α) (nm : String)
    (hEn : cfg.autoRetryEnabled = true)
    (h : ∀ i, ∃ e, op i = .error e ∧ isNonRetryableError e = false) :
    ∃ e, op cfg.maxRetries = .error e ∧
      (withRetry cfg op nm none).invocations = cfg.maxRetries + 1 ∧
      (withRetry cfg op nm none).outcome =
        .aggregated (aggregatedRetryError nm cfg.maxRetries e) := by
  obtain ⟨e, he, hInv, hOut⟩ :=
    withRetryGo_allFail op nm cfg.retryDelays cfg.maxRetries h
      (cfg.maxRetries - 0) 0 rfl (by omega)
  have hw : withRetry cfg op nm none =
      withRetryGo op nm cfg.retryDelays cfg.maxRetries 0 := by
    simp [withRetry, hEn, resolveMaxAttempts]
  refine ⟨e, he, ?_, ?_⟩
  · rw [hw, hInv]; omega
  · rw [hw, hOut]

theorem withRetry_exhausts_cap_witness :
    ∃ e, (fun _ : Nat => (Except.error "timeout" : Except String Nat))
        defaultConfig.maxRetries = .error e ∧
      (withRetry defaultConfig
          (fun _ : Nat => (Except.error "timeout" : Except String Nat))
          "video submission" none).invocations =
        defaultConfig.maxRetries + 1 ∧
      (withRetry defaultConfig
          (fun _ : Nat => (Except.error "timeout" : Except String Nat))
          "video submission" none).outcome =
        .aggregated (aggregatedRetryError "video submission"
          defaultConfig.maxRetries e) :=
  withRetry_exhausts_cap defaultConfig
    (fun _ : Nat => (Except.error "timeout" : Except String Nat))
    "video submission" rfl (fun _ => ⟨"timeout", rfl, by decide⟩)

/-- C3: with auto-retry enabled, an attempt failing with an error that
`isNonRetryableError` classifies as non-retryable makes the wrapper
re-raise that error immediately: the trace from that attempt on records
exactly one invocation, an empty delay list, and the re-raised error;
in particular a first-attempt non-retryable failure gives the whole
`withRetry` call that trace. -/
theorem withRetry_nonretryable_short_circuit {α : Type} (cfg : Config)
    (op : Nat → Except String α) (nm : String) (mr : Option Nat)
    (ds : List Nat) (M a : Nat) (e : String)
    (hEn : cfg.autoRetryEnabled = true)
    (h1 : op a = .error e) (h2 : isNonRetryableError e = true) :
    withRetryGo op nm ds M a = ⟨1, [], .raised e⟩ ∧
    (a = 0 → withRetry cfg op nm mr = ⟨1, [], .raised e⟩) := by
  refine ⟨withRetryGo_nonretryable op nm ds M a e h1 h2, ?_⟩
  intro ha
  subst ha
  simp only [withRetry, hEn, if_true]
  exact withRetryGo_nonretryable op nm cfg.retryDelays _ 0 e h1 h2

theorem withRetry_nonretryable_short_circuit_witness :
    withRetryGo
        (fun _ : Nat =>
          (Except.error "Bad Request: missing url" : Except String Nat))
        "op" [1000, 3000, 5000] 3 0 =
      ⟨1, [], .raised "Bad Request: missing url"⟩ ∧
    withRetry defaultConfig
        (fun _ : Nat =>
          (Except.error "Bad Request: missing url" : Except String Nat))
        "op" none =
      ⟨1, [], .raised "Bad Request: missing url"⟩ := by
  have h := withRetry_nonretryable_short_circuit defaultConfig
    (fun _ : Nat =>
      (Except.error "Bad Request: missing url" : Except String Nat))
    "op" none [1000, 3000, 5000] 3 0 "Bad Request: missing url" rfl rfl
    (by decide)
  exact ⟨h.1, h.2 rfl⟩

/-! ## Claims about error message formatting -/

theorem formatErrorMessage_firstKind (m : String)
    (h : matchesKnownKind m = true) :
    ∃ k, firstMatchingKind m = some k ∧
      formatErrorMessage m = kindMessage k := by
  unfold matchesKnownKind at h
  cases h1 : includes m "rate limit"
  case true =>
    exact ⟨.rateLimit,
      by simp [firstMatchingKind, matchesRateLimitKind, h1],
      by simp [formatErrorMessage, h1, kindMessage]⟩
  case false =>
  cases h2 : (includes m "network" || includes m "fetch")
  case true =>
    exact ⟨.network,
      by simp [firstMatchingKind, matchesRateLimitKind, matchesNetworkKind,
        h1, h2],
      by simp [formatErrorMessage, h1, h2, kindMessage]⟩
  case false =>
  cases h3 : (includes m "unauthorized" || includes m "auth")
  case true =>
    exact ⟨.auth,
      by simp [firstMatchingKind, matchesRateLimitKind, matchesNetworkKind,
        matchesAuthKind, h1, h2, h3],
      by simp [formatErrorMessage, h1, h2, h3, kindMessage]⟩
  case false =>
  cases h4 : (includes m "not found" || includes m "404")
  case true =>
    exact ⟨.notFound,
      by simp [firstMatchingKind, matchesRateLimitKind, matchesNetworkKind,
        matchesAuthKind, matchesNotFoundKind, h1, h2, h3, h4],
      by simp [formatErrorMessage, h1, h2, h3, h4, kindMessage]⟩
  case false =>
    simp [matchesRateLimitKind, matchesNetworkKind, matchesAuthKind,
      matchesNotFoundKind, h1, h2, h3, h4] at h

/-- C8 counterexample: the claim as stated fails on messages matching
more than one known kind. The messages "not found" and "auth not found"
both textually match the not-found kind, yet `formatErrorMessage` maps
the first to the fixed not-found message and the second to the fixed
auth message (the auth test precedes the not-found test in the chain),
and the two fixed messages differ. -/
theorem formatErrorMessage_same_kind_counterexample :
    matchesNotFoundKind "not found" = true ∧
    matchesNotFoundKind "auth not found" = true ∧
    formatErrorMessage "not found" = notFoundMessage ∧
    formatErrorMessage "auth not found" = authMessage ∧
    authMessage ≠ notFoundMessage :=
  ⟨by decide, by decide, by decide, by decide, by decide⟩

/-- C8 amended: formatted messages are derived deterministically from
the FIRST matching kind in the fixed precedence order rate limit,
network/fetch, unauthorized/auth, not found/404. Every message matching
a known kind is mapped to the fixed human-readable message of its first
matching kind (never left as raw collaborator text), and two messages
with the same first matching kind format identically. -/
theorem formatErrorMessage_kind_precedence (m : String)
    (h : matchesKnownKind m = true) :
    (∃ k, firstMatchingKind m = some k ∧
      formatErrorMessage m = kindMessage k) ∧
    ∀ m2, matchesKnownKind m2 = true →
      firstMatchingKind m2 = firstMatchingKind m →
      formatErrorMessage m2 = formatErrorMessage m := by
  refine ⟨formatErrorMessage_firstKind m h, ?_⟩
  intro m2 h2 heq
  obtain ⟨k, hk, hf⟩ := formatErrorMessage_firstKind m h
  obtain ⟨k2, hk2, hf2⟩ := formatErrorMessage_firstKind m2 h2
  rw [heq, hk] at hk2
  injection hk2 with hkk
  rw [hf, hf2, hkk]

theorem formatErrorMessage_kind_precedence_witness :
    (∃ k, firstMatchingKind "rate limit exceeded" = some k ∧
      formatErrorMessage "rate limit exceeded" = kindMessage k) ∧
    ∀ m2, matchesKnownKind m2 = true →
      firstMatchingKind m2 = firstMatchingKind "rate limit exceeded" →
      formatErrorMessage m2 = formatErrorMessage "rate limit exceeded" :=
  formatErrorMessage_kind_precedence "rate limit exceeded" (by decide)

/-! ## Claims about URL handling -/

theorem stripPfx_append (p r : List Char) : stripPfx p (p ++ r) = some r := by
  induction p with
  | nil => rfl
  | cons c cs ih => simp [stripPfx, ih]

theorem dropWhile_eq_self_of {p : Char → Bool} (l : List Char)
    (h : ∀ c ∈ l, p c = false) : l.dropWhile p = l := by
  cases l with
  | nil => rfl
  | cons c cs =>
    rw [List.dropWhile_cons]
    simp [h c (List.mem_cons_self c cs)]

theorem takeWhile_eq_self_of {p : Char → Bool} :
    ∀ l : List Char, (∀ c ∈ l, p c = true) → l.takeWhile p = l := by
  intro l
  induction l with
  | nil => intro _; rfl
  | cons c cs ih =>
    intro h
    rw [List.takeWhile_cons]
    simp [h c (List.mem_cons_self c cs),
      ih (fun x hx => h x (List.mem_cons_of_mem c hx))]

theorem trimL_eq_self (l : List Char)
    (h : ∀ c ∈ l, jsWhitespace c = false) : trimL l = l := by
  unfold trimL
  rw [dropWhile_eq_self_of l h]
  rw [dropWhile_eq_self_of l.reverse (fun c hc => h c (List.mem_reverse.mp hc))]
  exact List.reverse_reverse l

theorem wordHyphen_not_ws (c : Char) (h : isWordOrHyphen c = true) :
    jsWhitespace c = false := by
  unfold jsWhitespace
  simp only [Bool.or_eq_false_iff, beq_eq_false_iff_ne, ne_eq]
  refine ⟨⟨⟨?_, ?_⟩, ?_⟩, ?_⟩ <;> rintro rfl <;> exact absurd h (by decide)

theorem wordHyphen_capChar (c : Char) (h : isWordOrHyphen c = true) :
    idCapChar c = true := by
  unfold idCapChar
  have hfalse : (c == '&' || c == '\n' || c == '?' || c == '#') = false := by
    simp only [Bool.or_eq_false_iff, beq_eq_false_iff_ne, ne_eq]
    refine ⟨⟨⟨?_, ?_⟩, ?_⟩, ?_⟩ <;> rintro rfl <;> exact absurd h (by decide)
  rw [hfalse]
  rfl

theorem stripScheme_https (r : List Char) :
    stripScheme ("https://".data ++ r) = some r := by
  have h1 : ("https://" : String).data ++ r =
      "http".data ++ ("s".data ++ ("://".data ++ r)) := rfl
  rw [h1]
  simp only [stripScheme, stripPfx_append]

theorem matchWatch_of_id (s : List Char) (h : headWordHyphen s = true) :
    matchWatchPattern ("https://www.youtube.com/watch?v=".data ++ s) = true := by
  have h1 : ("https://www.youtube.com/watch?v=" : String).data ++ s =
      "https://".data ++ ("www.".data ++ ("youtube.com/watch?v=".data ++ s)) := rfl
  rw [h1]
  unfold matchWatchPattern
  rw [stripScheme_https]
  simp only [stripOptWww, stripPfx_append, h]

theorem tryAlternatives_watch (s : List Char) :
    tryAlternatives ("youtube.com/watch?v=".data ++ s) = some s := by
  simp only [tryAlternatives, stripPfx_append]

theorem captureAt_watch (s : List Char) (hne : s ≠ [])
    (hall : ∀ c ∈ s, isWordOrHyphen c = true) :
    captureAt ("youtube.com/watch?v=".data ++ s) = some s := by
  unfold captureAt
  rw [tryAlternatives_watch]
  have ht : s.takeWhile idCapChar = s :=
    takeWhile_eq_self_of s (fun c hc => wordHyphen_capChar c (hall c hc))
  simp [ht, List.isEmpty_iff, hne]

theorem captureAt_none_not_y (c : Char) (l : List Char)
    (h : ('y' == c) = false) : captureAt (c :: l) = none := by
  have a1 : ("youtube.com/watch?v=" : String).data =
      'y' :: "outube.com/watch?v=".data := rfl
  have a2 : ("youtu.be/" : String).data = 'y' :: "outu.be/".data := rfl
  have a3 : ("youtube.com/embed/" : String).data =
      'y' :: "outube.com/embed/".data := rfl
  have a4 : ("youtube.com/v/" : String).data =
      'y' :: "outube.com/v/".data := rfl
  unfold captureAt tryAlternatives
  rw [a1, a2, a3, a4]
  simp only [stripPfx, h]
  simp

theorem scanExtract_cons (c : Char) (l : List Char) :
    scanExtract (c :: l) =
      match captureAt (c :: l) with
      | some cap => some cap
      | none => scanExtract l := rfl

theorem scanExtract_skip (c : Char) (l : List Char)
    (h : ('y' == c) = false) : scanExtract (c :: l) = scanExtract l := by
  rw [scanExtract_cons, captureAt_none_not_y c l h]

theorem scanExtract_watch_url (s : List Char) (hne : s ≠ [])
    (hall : ∀ c ∈ s, isWordOrHyphen c = true) :
    scanExtract ("https://www.youtube.com/watch?v=".data ++ s) = some s := by
  have h1 : ("https://www.youtube.com/watch?v=" : String).data ++ s =
      'h' :: 't' :: 't' :: 'p' :: 's' :: ':' :: '/' :: '/' ::
        'w' :: 'w' :: 'w' :: '.' :: ("youtube.com/watch?v=".data ++ s) := rfl
  rw [h1]
  rw [scanExtract_skip _ _ (by decide), scanExtract_skip _ _ (by decide),
    scanExtract_skip _ _ (by decide), scanExtract_skip _ _ (by decide),
    scanExtract_skip _ _ (by decide), scanExtract_skip _ _ (by decide),
    scanExtract_skip _ _ (by decide), scanExtract_skip _ _ (by decide),
    scanExtract_skip _ _ (by decide), scanExtract_skip _ _ (by decide),
    scanExtract_skip _ _ (by decide), scanExtract_skip _ _ (by decide)]
  have h2 : ("youtube.com/watch?v=" : String).data ++ s =
      'y' :: ("outube.com/watch?v=".data ++ s) := rfl
  rw [h2, scanExtract_cons, ← h2, captureAt_watch s hne hall]

/-- C9: URL normalisation round-trips with validation and extraction.
For every 11-character string of word characters and hyphens,
`normalizeYouTubeUrl` turns it into the full watch URL, that URL passes
`isValidYouTubeUrl`, and `extractVideoId` applied to it recovers the
original 11-character string. -/
theorem normalizeYouTubeUrl_roundtrip (s : String)
    (hlen : s.data.length = 11)
    (hall : ∀ c ∈ s.data, isWordOrHyphen c = true) :
    normalizeYouTubeUrl s =
      ⟨"https://www.youtube.com/watch?v=".data ++ s.data⟩ ∧
    isValidYouTubeUrl (normalizeYouTubeUrl s) = true ∧
    extractVideoId (normalizeYouTubeUrl s) = some s := by
  have htrim : trimL s.data = s.data :=
    trimL_eq_self s.data (fun c hc => wordHyphen_not_ws c (hall c hc))
  have hcond : (s.data.length == 11 && s.data.all isWordOrHyphen) = true := by
    rw [hlen]
    simp only [beq_self_eq_true, Bool.true_and, List.all_eq_true]
    exact hall
  have hnorm : normalizeYouTubeUrl s =
      ⟨"https://www.youtube.com/watch?v=".data ++ s.data⟩ := by
    unfold normalizeYouTubeUrl
    simp only [htrim, hcond, if_true]
  have hne : s.data ≠ [] := by
    intro hnil
    rw [hnil] at hlen
    simp at hlen
  refine ⟨hnorm, ?_, ?_⟩
  · rw [hnorm]
    have hdata :
        (⟨"https://www.youtube.com/watch?v=".data ++ s.data⟩ : String).data =
          "https://www.youtube.com/watch?v=".data ++ s.data := rfl
    unfold isValidYouTubeUrl
    rw [hdata]
    have hhead : headWordHyphen s.data = true := by
      cases hd : s.data with
      | nil => exact absurd hd hne
      | cons c cs =>
        unfold headWordHyphen
        exact hall c (by rw [hd]; exact List.mem_cons_self c cs)
    rw [matchWatch_of_id s.data hhead]
    simp
  · rw [hnorm]
    unfold extractVideoId
    have hdata :
        (⟨"https://www.youtube.com/watch?v=".data ++ s.data⟩ : String).data =
          "https://www.youtube.com/watch?v=".data ++ s.data := rfl
    rw [hdata]
    rw [scanExtract_watch_url s.data hne hall]

theorem normalizeYouTubeUrl_roundtrip_witness :
    normalizeYouTubeUrl "dQw4w9WgXcQ" =
      ⟨"https://www.youtube.com/watch?v=".data ++ "dQw4w9WgXcQ".data⟩ ∧
    isValidYouTubeUrl (normalizeYouTubeUrl "dQw4w9WgXcQ") = true ∧
    extractVideoId (normalizeYouTubeUrl "dQw4w9WgXcQ") =
      some "dQw4w9WgXcQ" :=
  normalizeYouTubeUrl_roundtrip "dQw4w9WgXcQ" (by decide) (by decide)

/-! ## Claims about batch submission -/

theorem mkEntry_url {α : Type} (u : String) (r : Except String α) :
    (mkEntry u r).url = u := by
  cases r <;> rfl

theorem submitBatchGo_snd {α : Type} (submit : String → Except String α)
    (total : Nat) :
    ∀ (urls : List String) (i : Nat),
      (submitBatchGo submit total urls i).2 =
        urls.map (fun u => mkEntry u (submit u)) := by
  intro urls
  induction urls with
  | nil => intro i; rfl
  | cons u rest ih => intro i; simp [submitBatchGo, ih]

/-- C10: `submitBatch` isolates per-URL failures. Its results array is
exactly the input URL list mapped through the per-URL entry constructor:
one entry per input URL, in input order, each recording success with the
submission result or failure with the error message; the function is
total (a failing submission never raises out of it) and every URL is
attempted regardless of earlier failures. -/
theorem submitBatch_isolates_failures {α : Type}
    (submit : String → Except String α) (urls : List String) :
    (submitBatch submit urls).2 =
      urls.map (fun u => mkEntry u (submit u)) ∧
    ((submitBatch submit urls).2).length = urls.length ∧
    ((submitBatch submit urls).2).map (fun e => e.url) = urls ∧
    (∀ u r, submit u = .ok r →
      mkEntry u (submit u) = ⟨u, true, some r, none⟩) ∧
    (∀ u e, submit u = .error e →
      mkEntry u (submit u) = ⟨u, false, none, some e⟩) := by
  have hsnd := submitBatchGo_snd submit urls.length urls 0
  refine ⟨hsnd, ?_, ?_, ?_, ?_⟩
  · unfold submitBatch
    rw [hsnd, List.length_map]
  · unfold submitBatch
    rw [hsnd, List.map_map]
    have hcomp : ((fun e => BatchEntry.url e) ∘ fun u => mkEntry u (submit u)) =
        fun u => u := by
      funext u
      exact mkEntry_url u (submit u)
    rw [hcomp]
    simp
  · intro u r h; rw [h]; rfl
  · intro u e h; rw [h]; rfl

end DubADubDub
